import Mathlib

/-!
# Verification of the xtrader order-lifecycle engine (src/trading.py)

A shallow embedding of the trading bot's core components, with theorems
settling the specification claims about them.  Python floats are modelled
by exact rationals (`ℚ`); where IEEE special values (inf/NaN) are
semantically relevant (numpy/pandas indicator arithmetic) an extended
value type `EF` is used.  Fallible operations return `Option`; exchange
interactions are supplied through explicit oracle arguments.
-/

set_option maxHeartbeats 1000000

/-- Strategy type strings used by the bot: only the two constants
`MOMENTUM` and `SWING` ever occur as `signal['type']` /
`stop_multiplier` keys in `trading.py`. -/
inductive StratType where
  | MOMENTUM
  | SWING
deriving DecidableEq, Repr

/-- The subset of the `CONFIG` dictionary (built by `load_config`) that the
embedded core reads. -/
structure Config where
  INITIAL_BALANCE : ℚ
  LEVERAGE : ℚ
  RISK_PERCENT : ℚ
  MAX_SLIPPAGE : ℚ
  MAX_OPEN_ORDERS : ℕ
  VOLATILITY_FACTOR : ℚ
  PERFORMANCE_WINDOW : ℕ
  TRADING_TYPE : String
deriving DecidableEq, Repr

/-- `validate_config` requires `0.01 <= CONFIG['RISK_PERCENT'] <= 0.05`. -/
def validRiskPercent (cfg : Config) : Prop :=
  (1 / 100 : ℚ) ≤ cfg.RISK_PERCENT ∧ cfg.RISK_PERCENT ≤ 5 / 100

/-- An entry of `self.trade_history` (appended in `_monitor_order`).  The
optional `pnl` field models the `'pnl' in trade` presence test used by
`ParameterOptimizer._calculate_pnl`. -/
structure Trade where
  symbol : String
  side : String
  size : ℚ
  price : ℚ
  timestamp : ℚ
  signal_type : StratType
  pnl : Option ℚ
deriving DecidableEq, Repr

/-- `ParameterOptimizer._calculate_pnl`: the trade's precomputed `'pnl'`
field when present, `0` otherwise. -/
def calculate_pnl (trade : Trade) : ℚ :=
  match trade.pnl with
  | some v => v
  | none => 0

/-- `np.mean` over a rational list (ℚ division by zero is 0, matching the
guarded uses in the source where the list is never empty). -/
def listMean (l : List ℚ) : ℚ :=
  l.sum / (l.length : ℚ)

/-- Python's negative-index slice `l[-n:]` (when `n = 0` the slice is the
whole list, as `l[-0:] = l[0:]`). -/
def pySliceLast (n : ℕ) (l : List α) : List α :=
  if n = 0 then l else l.drop (l.length - n)

/-- `ParameterOptimizer.optimize_risk`, with the `CONFIG` globals passed
explicitly (`self.performance_window = CONFIG['PERFORMANCE_WINDOW']`). -/
def optimize_risk (cfg : Config) (recent_trades : List Trade) : ℚ :=
  if recent_trades.length < 10 then cfg.RISK_PERCENT
  else
    let recent := pySliceLast cfg.PERFORMANCE_WINDOW recent_trades
    let profitable_trades := recent.filter (fun t => decide (calculate_pnl t > 0))
    let win_rate : ℚ := (profitable_trades.length : ℚ) / (recent.length : ℚ)
    let avg_profit : ℚ :=
      if profitable_trades.isEmpty then 0
      else listMean (profitable_trades.map calculate_pnl)
    let losing_trades := recent.filter (fun t => decide (calculate_pnl t < 0))
    let avg_loss : ℚ :=
      if losing_trades.isEmpty then 1
      else |listMean (losing_trades.map calculate_pnl)|
    let profit_loss_r : ℚ := if avg_loss > 0 then avg_profit / avg_loss else 1
    let base_risk := cfg.RISK_PERCENT
    if win_rate > 7 / 10 ∧ profit_loss_r > 3 / 2 then
      min (base_risk * (12 / 10)) (35 / 1000)
    else if win_rate < 4 / 10 ∨ profit_loss_r < 8 / 10 then
      max (base_risk * (8 / 10)) (15 / 1000)
    else base_risk

/-- Spec-side definition (for the refinement claims): win rate = fraction
of the evaluated trades with positive PnL. -/
def winRateSpec (pnls : List ℚ) : ℚ :=
  ((pnls.filter (fun p => decide (p > 0))).length : ℚ) / (pnls.length : ℚ)

/-- Spec-side definition: profit/loss quotient = mean winner profit
divided by mean absolute loser loss, the loser mean defaulting to 1 when
there are no losers. -/
def plQuotSpec (pnls : List ℚ) : ℚ :=
  let winners := pnls.filter (fun p => decide (p > 0))
  let losers := pnls.filter (fun p => decide (p < 0))
  let loserMean : ℚ := if losers.isEmpty then 1 else listMean (losers.map (fun p => |p|))
  listMean winners / loserMean

/-- Spec-side risk policy: winRate>0.7 and quotient>1.5 raise the risk by
x1.2 capped at 3.5%; winRate<0.4 or quotient<0.8 lower it by x0.8 floored
at 1.5%; otherwise the base risk is unchanged. -/
def riskPolicySpec (base win_rate plq : ℚ) : ℚ :=
  if win_rate > 7 / 10 ∧ plq > 3 / 2 then min (base * (12 / 10)) (35 / 1000)
  else if win_rate < 4 / 10 ∨ plq < 8 / 10 then max (base * (8 / 10)) (15 / 1000)
  else base

/-- One entry of the per-symbol `TRADE_SYMBOLS` table. -/
structure SymbolCfg where
  risk_weight : ℚ
  stop_multiplier : StratType → ℚ
  profit_multiplier : StratType → ℚ
  min_qty : ℚ
  max_position_usd : ℚ

/-- The `TRADE_SYMBOLS` dictionary: `none` models a `KeyError` on lookup
(caught by the enclosing `try` blocks, which then return `None`). -/
def Symbols := String → Option SymbolCfg

/-- Python's `str.endswith`. -/
def strEndsWith (s suffix : String) : Bool :=
  suffix.data.isSuffixOf s.data

/-- Round-half-to-even to an integer, as `numpy`/Python `round` does on
the exact value. -/
def roundHalfEven (x : ℚ) : ℤ :=
  let n := ⌊x⌋
  if x - n < 1 / 2 then n
  else if 1 / 2 < x - n then n + 1
  else if n % 2 = 0 then n else n + 1

/-- Python's `round(x, 5)` on the exact value: round half to even at the
fifth decimal. -/
def pyRound5 (x : ℚ) : ℚ :=
  (roundHalfEven (x * 100000) : ℚ) / 100000

/-- `calculate_position_size` from `trading.py`, with the globals `CONFIG`
and `TRADE_SYMBOLS` passed explicitly.  A missing symbol entry raises
`KeyError`, caught by the function's `try` which returns `None`; a `None`
or empty `trade_history` falls back to `CONFIG['RISK_PERCENT']`. -/
def calculate_position_size (cfg : Config) (syms : Symbols) (symbol : String)
    (balance : ℚ) (signal_type : StratType) (atr price : ℚ)
    (trade_history : List Trade) : Option ℚ :=
  match syms symbol with
  | none => none
  | some sc =>
    let risk_percent :=
      if trade_history.length > 0 then optimize_risk cfg trade_history
      else cfg.RISK_PERCENT
    let base_risk := balance * risk_percent * sc.risk_weight
    let volatility_adj := min (atr / price * 100) 5
    let adjusted_risk := base_risk * (1 - volatility_adj * (1 / 10))
    let multiplier := sc.stop_multiplier signal_type
    let ps0 := adjusted_risk / (multiplier * atr)
    let ps1 := if strEndsWith symbol "USDT" then ps0 / price else ps0
    let max_position := sc.max_position_usd / price
    let ps2 := min ps1 max_position
    if ps2 < sc.min_qty then none
    else some (pyRound5 ps2)

/-- One row of the indicator DataFrame consumed by `generate_signal`
(the columns it reads; `market_state` is the string computed row-wise by
`detect_market_regime`). -/
structure FeatureRow where
  momentum : ℚ
  rsi : ℚ
  atr : ℚ
  close : ℚ
  ema30 : ℚ
  ema50 : ℚ
  bb_upper : ℚ
  bb_lower : ℚ
  volume_r : ℚ
  market_state : String

/-- The MOMENTUM rule set of `generate_signal` (`momentum_signal = all([...])`). -/
def momentumCond (current : FeatureRow) : Bool :=
  decide (current.momentum > 5 / 100) &&
  decide (current.rsi < 70) &&
  decide (current.close > current.bb_upper) &&
  decide (current.ema30 > current.ema50) &&
  decide (current.volume_r > 12 / 10) &&
  (current.market_state == "TRENDING")

/-- The SWING rule set of `generate_signal` (`swing_signal = all([...])`). -/
def swingCond (current : FeatureRow) : Bool :=
  decide (current.rsi < 40) &&
  decide (current.close < current.bb_lower) &&
  decide (current.ema30 > current.ema50) &&
  decide (current.volume_r > 11 / 10)

/-- The `Signal` dictionary produced by `generate_signal`. -/
structure Signal where
  symbol : String
  signal : String
  type : StratType
  size : ℚ
  price : ℚ
  stop_loss : ℚ
  take_profit : ℚ
deriving DecidableEq, Repr

/-- Builds the signal dictionary literal of `generate_signal` for the
given fired strategy. -/
def mkSignal (symbol : String) (st : StratType) (sc : SymbolCfg)
    (size : ℚ) (current : FeatureRow) : Signal :=
  { symbol := symbol
    signal := "BUY"
    type := st
    size := size
    price := current.close
    stop_loss := current.close - sc.stop_multiplier st * current.atr
    take_profit := current.close + sc.profit_multiplier st * current.atr }

/-- `generate_signal` from `trading.py`.  `guardOk` is the outcome of the
`@system_guard` wrapper (memory/thread-count check; `False` makes the
wrapper return `None` before the body runs).  The DataFrame is the list of
its rows; `df.iloc[-1]` is the last row (the assigned `prev = df.iloc[-2]`
is never read in the source). -/
def generate_signal (cfg : Config) (syms : Symbols) (guardOk : Bool)
    (df : List FeatureRow) (symbol : String) (current_balance : ℚ)
    (trade_history : List Trade) : Option Signal :=
  if !guardOk then none
  else if df.length < 2 then none
  else
    match df.getLast? with
    | none => none
    | some current =>
      if current.atr > listMean (df.map (fun r => r.atr)) * cfg.VOLATILITY_FACTOR then
        none
      else
        let msig := momentumCond current
        let ssig := swingCond current
        match calculate_position_size cfg syms symbol current_balance
            (if msig then StratType.MOMENTUM else StratType.SWING)
            current.atr current.close trade_history with
        | none => none
        | some position_size =>
          if msig then
            match syms symbol with
            | none => none
            | some sc => some (mkSignal symbol StratType.MOMENTUM sc position_size current)
          else if ssig then
            match syms symbol with
            | none => none
            | some sc => some (mkSignal symbol StratType.SWING sc position_size current)
          else none

/-- The exchange's reply to a successful main-order submission (the only
field the source reads is `orderId`). -/
structure MainOrder where
  orderId : ℕ
deriving DecidableEq, Repr

/-- One value of the `self.open_orders` dict:
`{'signal': ..., 'order': ..., 'timestamp': ...}`. -/
structure OpenOrder where
  signal : Signal
  order : MainOrder
  timestamp : ℚ
deriving DecidableEq, Repr

/-- Python-dict association list operations for `self.open_orders`
(insertion order preserved, keys unique). -/
def lookupOrd (k : ℕ) (l : List (ℕ × OpenOrder)) : Option OpenOrder :=
  (l.find? (fun p => p.1 == k)).map (fun p => p.2)

/-- `del d[k]` guarded by `if k in d` (a no-op when the key is absent). -/
def eraseOrd (k : ℕ) (l : List (ℕ × OpenOrder)) : List (ℕ × OpenOrder) :=
  l.filter (fun p => p.1 != k)

/-- `d[k] = v`: overwrite in place if present, else append. -/
def insertOrd (k : ℕ) (v : OpenOrder) (l : List (ℕ × OpenOrder)) :
    List (ℕ × OpenOrder) :=
  if l.any (fun p => p.1 == k) then
    l.map (fun p => if p.1 == k then (k, v) else p)
  else l ++ [(k, v)]

/-- The mutable state of an `OrderManager` instance that `execute_order`
and `_monitor_order` touch (`self.open_orders`, `self.trade_history`). -/
structure OMState where
  open_orders : List (ℕ × OpenOrder)
  trade_history : List Trade
deriving DecidableEq, Repr

/-- The exchange-facing effects `execute_order` observes, passed as an
oracle: the `@system_guard` outcome, `get_current_price` (`None` after all
retries fail), `_get_account_balance`'s exchange read (`None` models the
caught exception, after which the configured initial balance is used),
`_place_main_order`'s result (`None` on submission failure), and the
wall-clock time recorded with the order. -/
structure ExecOracle where
  guardOk : Bool
  current_price : Option ℚ
  balance : Option ℚ
  main_order : Option MainOrder
  now : ℚ
deriving Repr

/-- `OrderManager._get_account_balance`: the exchange-reported USDT
balance, falling back to `CONFIG['INITIAL_BALANCE']` on failure. -/
def get_account_balance (cfg : Config) (o : ExecOracle) : ℚ :=
  match o.balance with
  | some b => b
  | none => cfg.INITIAL_BALANCE

/-- `OrderManager._pre_execution_check`: slippage, margin and open-order
count gates.  `if not current_price` is also taken for a `0.0` price. -/
def pre_execution_check (cfg : Config) (o : ExecOracle) (st : OMState)
    (signal : Signal) : Bool :=
  match o.current_price with
  | none => false
  | some current_price =>
    if current_price = 0 then false
    else
      let slippage := |current_price - signal.price| / signal.price
      if slippage > cfg.MAX_SLIPPAGE then false
      else
        let account_balance := get_account_balance cfg o
        let required_margin := signal.size * current_price / cfg.LEVERAGE
        if required_margin > account_balance * (8 / 10) then false
        else if cfg.MAX_OPEN_ORDERS ≤ st.open_orders.length then false
        else true

/-- `OrderManager.execute_order` (body under `self.position_lock`): check,
submit the main order, attach risk orders (`_place_risk_orders` catches
its own exceptions and never mutates the manager state), record the order
in `self.open_orders`, start the monitor thread.  Returns the success flag
and the updated state; every failure path leaves the state unchanged. -/
def execute_order (cfg : Config) (o : ExecOracle) (st : OMState)
    (signal : Signal) : Bool × OMState :=
  if !o.guardOk then (false, st)
  else if !pre_execution_check cfg o st signal then (false, st)
  else
    match o.main_order with
    | none => (false, st)
    | some main_order =>
      (true,
        { st with
          open_orders :=
            insertOrd main_order.orderId
              { signal := signal, order := main_order, timestamp := o.now }
              st.open_orders })

/-- One iteration's view of the order-status query in `_monitor_order`:
either a reply carrying `status`/`executedQty`/`avgPrice`, or an exception
(logged, then the loop sleeps and retries). -/
inductive Poll where
  | ok (status : String) (executedQty avgPrice : ℚ)
  | err
deriving DecidableEq, Repr

/-- The three ways `_monitor_order` can end. -/
inductive MonitorOutcome where
  | filled
  | canceled
  | timedOut
deriving DecidableEq, Repr

/-- `OrderManager._monitor_order`.  The poll list stands for the bounded
2-minute / 5-second-sleep loop: one element per iteration, the list
running out when `time.time() - start_time` reaches 120.  On timeout a
cancel is attempted (`cancelOk = false` models the caught cancel
exception, which only logs) and the entry is removed in either case.
`filled` / `canceled` / `timedOut` stand for the `return True` /
`return False` (after `CANCELED`) / `return False` (after timeout)
exits. -/
def monitor_order (order_id : ℕ) (signal : Signal) (cancelOk : Bool)
    (now : ℚ) (st : OMState) : List Poll → MonitorOutcome × OMState
  | [] =>
    (MonitorOutcome.timedOut,
      { st with open_orders := eraseOrd order_id st.open_orders })
  | Poll.err :: rest => monitor_order order_id signal cancelOk now st rest
  | Poll.ok status executedQty avgPrice :: rest =>
    if status = "FILLED" then
      (MonitorOutcome.filled,
        { st with
          trade_history := st.trade_history ++
            [{ symbol := signal.symbol, side := "BUY", size := executedQty,
               price := avgPrice, timestamp := now,
               signal_type := signal.type, pnl := none }]
          open_orders := eraseOrd order_id st.open_orders })
    else if status = "CANCELED" then
      (MonitorOutcome.canceled,
        { st with open_orders := eraseOrd order_id st.open_orders })
    else monitor_order order_id signal cancelOk now st rest

/-- A futures position as reported by `futures_position_information` (the
source only inspects `positionAmt`; the rest is opaque payload). -/
structure FutPosition where
  positionAmt : ℚ
  payload : String
deriving DecidableEq, Repr

/-- A spot balance row from `get_account()['balances']`. -/
structure SpotBalance where
  asset : String
  free : ℚ
  locked : ℚ
deriving DecidableEq, Repr

/-- The `positions` field of the recovery file: filtered futures
positions, or filtered spot balances, depending on the trading type. -/
inductive PositionsData where
  | futures (l : List FutPosition)
  | spot (l : List SpotBalance)
deriving DecidableEq, Repr

/-- The exchange reads `save_recovery_state` performs (opaque order
payloads). -/
structure ExchangeView where
  futPositions : List FutPosition
  futOpenOrders : List String
  spotBalances : List SpotBalance
  spotOpenOrders : List String
deriving DecidableEq, Repr

/-- The JSON document written to `recovery.json`. -/
structure RecoveryFile where
  positions : PositionsData
  orders : List String
  open_orders : List (ℕ × OpenOrder)
  trade_history : List Trade
  timestamp : ℚ
  config : Config
  trading_type : String
deriving DecidableEq, Repr

/-- `save_recovery_state`: snapshot the filtered exchange positions and
open orders, the manager's `open_orders` dict, the last 50 trades
(`trade_history[-50:]`), the wall-clock timestamp and the configuration.
(The caller observes `none` only when one of the exchange reads raises;
that path writes nothing.) -/
def save_recovery_state (cfg : Config) (ex : ExchangeView) (om : OMState)
    (now : ℚ) : RecoveryFile :=
  { positions :=
      if cfg.TRADING_TYPE = "futures" then
        PositionsData.futures (ex.futPositions.filter (fun p => p.positionAmt != 0))
      else
        PositionsData.spot (ex.spotBalances.filter
          (fun b => decide (0 < b.free) || decide (0 < b.locked)))
    orders :=
      if cfg.TRADING_TYPE = "futures" then ex.futOpenOrders else ex.spotOpenOrders
    open_orders := om.open_orders
    trade_history := pySliceLast 50 om.trade_history
    timestamp := now
    config := cfg
    trading_type := cfg.TRADING_TYPE }

/-- `load_recovery_state`: `none` when no `recovery.json` exists
(modelled by a `none` file argument) or when the snapshot is older than
3600 seconds; otherwise the parsed state. -/
def load_recovery_state (file : Option RecoveryFile) (now : ℚ) :
    Option RecoveryFile :=
  match file with
  | none => none
  | some state =>
    if now - state.timestamp > 3600 then none
    else some state

/-- IEEE-style extended value for the numpy/pandas float arithmetic of the
indicator pipeline: an exact finite value, a signed infinity, or NaN.
numpy division by zero yields an infinity or NaN (with a warning), never
an exception. -/
inductive EF where
  | fin : ℚ → EF
  | pinf
  | ninf
  | nan
deriving DecidableEq, Repr

/-- `pd.isna`. -/
def EF.isna : EF → Bool
  | nan => true
  | _ => false

/-- IEEE negation. -/
def EF.neg : EF → EF
  | fin a => fin (-a)
  | pinf => ninf
  | ninf => pinf
  | nan => nan

/-- IEEE addition (`inf + -inf = nan`). -/
def EF.add : EF → EF → EF
  | nan, _ => nan
  | _, nan => nan
  | fin a, fin b => fin (a + b)
  | pinf, ninf => nan
  | ninf, pinf => nan
  | pinf, _ => pinf
  | _, pinf => pinf
  | ninf, _ => ninf
  | _, ninf => ninf

/-- IEEE subtraction. -/
def EF.sub (x y : EF) : EF := EF.add x (EF.neg y)

/-- IEEE multiplication (`0 * inf = nan`). -/
def EF.mul : EF → EF → EF
  | nan, _ => nan
  | _, nan => nan
  | fin a, fin b => fin (a * b)
  | fin a, pinf => if a = 0 then nan else if 0 < a then pinf else ninf
  | pinf, fin a => if a = 0 then nan else if 0 < a then pinf else ninf
  | fin a, ninf => if a = 0 then nan else if 0 < a then ninf else pinf
  | ninf, fin a => if a = 0 then nan else if 0 < a then ninf else pinf
  | pinf, pinf => pinf
  | pinf, ninf => ninf
  | ninf, pinf => ninf
  | ninf, ninf => pinf

/-- IEEE division: a nonzero finite value divided by (positive) zero is a
signed infinity, `0/0 = nan`, finite over infinite is zero, infinite over
infinite is NaN.  Exact zeros arising in the pipeline are positive
zeros. -/
def EF.div : EF → EF → EF
  | nan, _ => nan
  | _, nan => nan
  | fin a, fin b =>
    if b = 0 then (if a = 0 then nan else if 0 < a then pinf else ninf)
    else fin (a / b)
  | fin _, pinf => fin 0
  | fin _, ninf => fin 0
  | pinf, fin b => if 0 ≤ b then pinf else ninf
  | ninf, fin b => if 0 ≤ b then ninf else pinf
  | pinf, _ => nan
  | ninf, _ => nan

/-- IEEE absolute value. -/
def EF.abs : EF → EF
  | fin a => fin |a|
  | nan => nan
  | _ => pinf

/-- IEEE strict comparison: any comparison involving NaN is false. -/
def EF.lt : EF → EF → Bool
  | nan, _ => false
  | _, nan => false
  | fin a, fin b => decide (a < b)
  | fin _, pinf => true
  | ninf, fin _ => true
  | ninf, pinf => true
  | _, _ => false

/-- Tail of `.ewm(alpha, adjust=False).mean()` over exact rationals:
current mean `s`, then `s_t = (1-alpha)*s_{t-1} + alpha*x_t`. -/
def ewmGo (al s : ℚ) : List ℚ → List ℚ
  | [] => [s]
  | x :: xs => s :: ewmGo al ((1 - al) * s + al * x) xs

/-- `.ewm(alpha, adjust=False).mean()` over exact rationals (all-numeric
input series): the first output equals the first input. -/
def ewmList (al : ℚ) : List ℚ → List ℚ
  | [] => []
  | x :: xs => ewmGo al x xs

/-- Tail of `gainsList`: `delta.where(delta > 0, 0.0)` row by row. -/
def gainsGo (prev : ℚ) : List ℚ → List ℚ
  | [] => []
  | c :: cs => max (c - prev) 0 :: gainsGo c cs

/-- `gains = delta.where(delta > 0, 0.0)` for `delta = close.diff()`: the
first delta is NaN, and `NaN > 0` is false, so the first gain is `0.0`. -/
def gainsList : List ℚ → List ℚ
  | [] => []
  | c :: cs => 0 :: gainsGo c cs

/-- Tail of `lossesList`: `(-delta).where(delta < 0, 0.0)` row by row. -/
def lossesGo (prev : ℚ) : List ℚ → List ℚ
  | [] => []
  | c :: cs => max (prev - c) 0 :: lossesGo c cs

/-- `losses = (-delta).where(delta < 0, 0.0)`; the first entry is `0.0`
for the same NaN reason as the gains. -/
def lossesList : List ℚ → List ℚ
  | [] => []
  | c :: cs => 0 :: lossesGo c cs

/-- The RSI formula applied to one row's smoothed averages:
`rs = avg_gain/avg_loss; rsi = 100 - (100 / (1 + rs))`, in IEEE
arithmetic (this is where a zero average loss divides by zero). -/
def rsiFromAvg (avg_gain avg_loss : ℚ) : EF :=
  EF.sub (EF.fin 100)
    (EF.div (EF.fin 100)
      (EF.add (EF.fin 1) (EF.div (EF.fin avg_gain) (EF.fin avg_loss))))

/-- The per-row pairs (smoothed average gain, smoothed average loss) of
`calculate_rsi_accurate` with Wilder smoothing `alpha = 1/14`. -/
def rsiPairs (closes : List ℚ) : List (ℚ × ℚ) :=
  List.zip (ewmList (1 / 14) (gainsList closes))
    (ewmList (1 / 14) (lossesList closes))

/-- `calculate_rsi_accurate` over a numeric close series. -/
def calculate_rsi_accurate (closes : List ℚ) : List EF :=
  (rsiPairs closes).map (fun p => rsiFromAvg p.1 p.2)

/-- Tail of the true-range series: rows with a previous close use
`max(high-low, |high-prevClose|, |low-prevClose|)`. -/
def trGo : List ℚ → List ℚ → List ℚ → List ℚ
  | h :: hs, l :: ls, pc :: pcs =>
    max (h - l) (max |h - pc| |l - pc|) :: trGo hs ls pcs
  | _, _, _ => []

/-- True range via `pd.concat([...]).max(axis=1)`: on the first row the
shifted-close terms are NaN and the row maximum (NaN-skipping) is
`high - low`. -/
def trueRangeList (highs lows closes : List ℚ) : List ℚ :=
  match highs, lows with
  | h :: hs, l :: ls => (h - l) :: trGo hs ls closes
  | _, _ => []

/-- Tail of `dmPairs`.  Mirrors the two sequential `where` reassignments
of `calculate_adx_accurate`: the second filter compares `dm_minus`
against the already-reassigned `dm_plus`. -/
def dmGo (ph pl : ℚ) : List ℚ → List ℚ → List (ℚ × ℚ)
  | h :: hs, l :: ls =>
    let dp := h - ph
    let dm := (l - pl) * (-1)
    let dp2 := if dp > dm ∧ dp > 0 then dp else 0
    let dm2 := if dm > dp2 ∧ dm > 0 then dm else 0
    (dp2, dm2) :: dmGo h l hs ls
  | _, _ => []

/-- Per-row filtered directional movement `(dm_plus, dm_minus)`; the first
row's diffs are NaN, so both `where` conditions are false and the first
pair is `(0, 0)`. -/
def dmPairs (highs lows : List ℚ) : List (ℚ × ℚ) :=
  match highs, lows with
  | h :: hs, l :: ls => (0, 0) :: dmGo h l hs ls
  | _, _ => []

/-- `dm_plus` after its `where` filter. -/
def dmPlusList (highs lows : List ℚ) : List ℚ :=
  (dmPairs highs lows).map Prod.fst

/-- `dm_minus` after its `where` filter. -/
def dmMinusList (highs lows : List ℚ) : List ℚ :=
  (dmPairs highs lows).map Prod.snd

/-- One row of the DI/DX computation in IEEE arithmetic:
`di = 100*(dm_smooth/atr_smooth)` for both directions, then
`dx = 100*|di_plus - di_minus| / (di_plus + di_minus)` (this is where a
zero DI sum divides by zero). -/
def dxRow (dps dms atrs : ℚ) : EF :=
  let di_plus := EF.mul (EF.fin 100) (EF.div (EF.fin dps) (EF.fin atrs))
  let di_minus := EF.mul (EF.fin 100) (EF.div (EF.fin dms) (EF.fin atrs))
  EF.div (EF.mul (EF.fin 100) (EF.abs (EF.sub di_plus di_minus)))
    (EF.add di_plus di_minus)

/-- Tail of `.ewm(alpha, adjust=False, ignore_na=False).mean()` over
possibly-NaN values, as pandas computes it: NaN inputs emit the previous
mean (NaN while no valid value has been seen) and stretch the decay of
the previous weight across the gap. -/
def ewmEFGo (al : ℚ) : Option (EF × ℕ) → List EF → List EF
  | _, [] => []
  | none, EF.nan :: xs => EF.nan :: ewmEFGo al none xs
  | none, x :: xs => x :: ewmEFGo al (some (x, 0)) xs
  | some (y, k), EF.nan :: xs => y :: ewmEFGo al (some (y, k + 1)) xs
  | some (y, k), x :: xs =>
    let w := (1 - al) ^ (k + 1)
    let y2 := EF.div (EF.add (EF.mul (EF.fin w) y) (EF.mul (EF.fin al) x))
      (EF.fin (w + al))
    y2 :: ewmEFGo al (some (y2, 0)) xs

/-- `.ewm(alpha, adjust=False).mean()` over possibly-NaN values. -/
def ewmEF (al : ℚ) (l : List EF) : List EF :=
  ewmEFGo al none l

/-- `calculate_adx_accurate` over numeric high/low/close series: Wilder
smoothing of true range and directional movement, DI/DX in IEEE
arithmetic, then DX smoothed again. -/
def calculate_adx_accurate (highs lows closes : List ℚ) : List EF :=
  let atr_smooth := ewmList (1 / 14) (trueRangeList highs lows closes)
  let dm_plus_smooth := ewmList (1 / 14) (dmPlusList highs lows)
  let dm_minus_smooth := ewmList (1 / 14) (dmMinusList highs lows)
  ewmEF (1 / 14) (List.zipWith3 dxRow dm_plus_smooth dm_minus_smooth atr_smooth)

/-- `detect_market_regime` applied to one row.  `bb_position` is computed
before the `pd.isna(adx)` test; all comparisons are IEEE (false on NaN),
so the function never faults, and its own `except` clause would return
`'UNKNOWN'` anyway. -/
def detect_market_regime (adx close bb_lower bb_upper : EF) : String :=
  let bb_position := EF.div (EF.sub close bb_lower) (EF.sub bb_upper bb_lower)
  if adx.isna then "UNKNOWN"
  else if EF.lt (EF.fin 25) adx then "TRENDING"
  else if EF.lt bb_position (EF.fin (3 / 10)) then "OVERSOLD"
  else if EF.lt (EF.fin (7 / 10)) bb_position then "OVERBOUGHT"
  else "RANGING"

/-- Control points of one thread running `OrderManager.execute_order`:
`checking`, `submitting` and `recording` are inside the
`with self.position_lock` block (validation, main/risk order placement,
and writing `self.open_orders` + starting the monitor); `done` means the
call returned. -/
inductive LockPC where
  | idle
  | checking
  | submitting
  | recording
  | done
deriving DecidableEq, Repr

/-- Whether a control point is inside the critical section. -/
def LockPC.inCrit : LockPC → Bool
  | LockPC.checking => true
  | LockPC.submitting => true
  | LockPC.recording => true
  | _ => false

/-- A manager instance's lock together with the control point of every
thread that may call `execute_order` on it. -/
structure LockSys (T : Type) where
  lock : Option T
  pc : T → LockPC

/-- All threads outside `execute_order`, lock free. -/
def lockInit (T : Type) : LockSys T where
  lock := none
  pc := fun _ => LockPC.idle

/-- Interleaving semantics of `execute_order`'s locking structure.  The
`with` statement acquires the lock only when free; every exit path —
validation failure, main-order submission failure, normal completion,
and an exception propagating out of the `try` body — releases it. -/
inductive LockStep {T : Type} [DecidableEq T] : LockSys T → LockSys T → Prop where
  | acquire (s : LockSys T) (i : T) (hpc : s.pc i = LockPC.idle)
      (hl : s.lock = none) :
      LockStep s { lock := some i, pc := Function.update s.pc i LockPC.checking }
  | checkFail (s : LockSys T) (i : T) (hpc : s.pc i = LockPC.checking)
      (hl : s.lock = some i) :
      LockStep s { lock := none, pc := Function.update s.pc i LockPC.done }
  | checkOk (s : LockSys T) (i : T) (hpc : s.pc i = LockPC.checking)
      (hl : s.lock = some i) :
      LockStep s { s with pc := Function.update s.pc i LockPC.submitting }
  | submitFail (s : LockSys T) (i : T) (hpc : s.pc i = LockPC.submitting)
      (hl : s.lock = some i) :
      LockStep s { lock := none, pc := Function.update s.pc i LockPC.done }
  | submitOk (s : LockSys T) (i : T) (hpc : s.pc i = LockPC.submitting)
      (hl : s.lock = some i) :
      LockStep s { s with pc := Function.update s.pc i LockPC.recording }
  | finish (s : LockSys T) (i : T) (hpc : s.pc i = LockPC.recording)
      (hl : s.lock = some i) :
      LockStep s { lock := none, pc := Function.update s.pc i LockPC.done }
  | raise (s : LockSys T) (i : T) (hpc : (s.pc i).inCrit = true)
      (hl : s.lock = some i) :
      LockStep s { lock := none, pc := Function.update s.pc i LockPC.done }

/-- States reachable from the all-idle initial state. -/
def LockReachable {T : Type} [DecidableEq T] (s : LockSys T) : Prop :=
  Relation.ReflTransGen LockStep (lockInit T) s

/-- Concrete configuration used by the evaluation fixtures. -/
def cfgFix : Config :=
  { INITIAL_BALANCE := 10000, LEVERAGE := 2, RISK_PERCENT := 2 / 100,
    MAX_SLIPPAGE := 1 / 100, MAX_OPEN_ORDERS := 5, VOLATILITY_FACTOR := 3,
    PERFORMANCE_WINDOW := 12, TRADING_TYPE := "futures" }

/-- Fixture symbol table entry (the cap `max_position_usd = 1.999997`
exposes the rounding overshoot of the position sizer). -/
def scFix : SymbolCfg :=
  { risk_weight := 1, stop_multiplier := fun _ => 2,
    profit_multiplier := fun _ => 3, min_qty := 1 / 1000,
    max_position_usd := 1999997 / 1000000 }

/-- Fixture symbol table. -/
def symsFix : Symbols := fun s => if s = "BTCUSDT" then some scFix else none

/-- Fixture trade record with the given optional `pnl` field. -/
def tradeFix (p : Option ℚ) : Trade :=
  { symbol := "BTCUSDT", side := "BUY", size := 1, price := 1, timestamp := 0,
    signal_type := StratType.MOMENTUM, pnl := p }

/-- Fixture history: 12 trades, 9 winners at +2 and 3 losers at -1
(win rate 0.75, profit/loss quotient 2). -/
def tradesNine : List Trade :=
  [tradeFix (some 2), tradeFix (some 2), tradeFix (some 2), tradeFix (some 2),
   tradeFix (some 2), tradeFix (some 2), tradeFix (some 2), tradeFix (some 2),
   tradeFix (some 2), tradeFix (some (-1)), tradeFix (some (-1)),
   tradeFix (some (-1))]

/-- Fixture history: 10 trades, 5 winners at +1 and 5 losers at -1
(win rate 0.5, profit/loss quotient 1: the unchanged branch). -/
def tradesEven : List Trade :=
  [tradeFix (some 1), tradeFix (some 1), tradeFix (some 1), tradeFix (some 1),
   tradeFix (some 1), tradeFix (some (-1)), tradeFix (some (-1)),
   tradeFix (some (-1)), tradeFix (some (-1)), tradeFix (some (-1))]

/-- Fixture history: 10 trades, none carrying a `pnl` field. -/
def tradesNoPnl : List Trade :=
  [tradeFix none, tradeFix none, tradeFix none, tradeFix none, tradeFix none,
   tradeFix none, tradeFix none, tradeFix none, tradeFix none, tradeFix none]

/-- Fixture signal (reference price 100). -/
def sigFix : Signal :=
  { symbol := "BTCUSDT", signal := "BUY", type := StratType.MOMENTUM,
    size := 1, price := 100, stop_loss := 95, take_profit := 110 }

/-- Fixture empty manager state. -/
def stEmpty : OMState := { open_orders := [], trade_history := [] }

/-- Fixture execution oracle: current price 5% above the signal price. -/
def oSlip : ExecOracle :=
  { guardOk := true, current_price := some 105, balance := some 10000,
    main_order := some { orderId := 7 }, now := 0 }

/-- Lock-machine fixture: thread `true` has acquired (it is checking). -/
def lockS1 : LockSys Bool :=
  { lock := some true, pc := Function.update (lockInit Bool).pc true LockPC.checking }

/-- Lock-machine fixture: thread `true` failed validation and returned. -/
def lockS2 : LockSys Bool :=
  { lock := none, pc := Function.update lockS1.pc true LockPC.done }

/-- Lock-machine fixture: thread `false` has acquired while `true` is done. -/
def lockS3 : LockSys Bool :=
  { lock := some false, pc := Function.update lockS2.pc false LockPC.checking }

/-- The `profitable_trades` filter of `optimize_risk`, over an arbitrary
evaluated window. -/
def codeProfitable (recent : List Trade) : List Trade :=
  recent.filter (fun t => decide (calculate_pnl t > 0))

/-- The `losing_trades` filter of `optimize_risk`. -/
def codeLosing (recent : List Trade) : List Trade :=
  recent.filter (fun t => decide (calculate_pnl t < 0))

/-- The `win_rate` expression of `optimize_risk`. -/
def codeWinRate (recent : List Trade) : ℚ :=
  ((codeProfitable recent).length : ℚ) / (recent.length : ℚ)

/-- The `avg_profit` expression of `optimize_risk`. -/
def codeAvgProfit (recent : List Trade) : ℚ :=
  if (codeProfitable recent).isEmpty then 0
  else listMean ((codeProfitable recent).map calculate_pnl)

/-- The `avg_loss` expression of `optimize_risk`. -/
def codeAvgLoss (recent : List Trade) : ℚ :=
  if (codeLosing recent).isEmpty then 1
  else |listMean ((codeLosing recent).map calculate_pnl)|

/-- The `profit_loss_ratio` expression of `optimize_risk`. -/
def codeQuot (recent : List Trade) : ℚ :=
  if codeAvgLoss recent > 0 then codeAvgProfit recent / codeAvgLoss recent else 1

/-- Fixture feature row matching the spec's MOMENTUM scenario: momentum
0.06, RSI 50, close above the upper band, fast EMA above slow, volume
ratio 1.5, TRENDING regime. -/
def rowMom : FeatureRow :=
  { momentum := 6 / 100, rsi := 50, atr := 1, close := 110, ema30 := 2,
    ema50 := 1, bb_upper := 105, bb_lower := 95, volume_r := 3 / 2,
    market_state := "TRENDING" }

/-- Fixture predecessor row (read as `df.iloc[-2]` but never used by the
source). -/
def rowPrev : FeatureRow :=
  { momentum := 0, rsi := 50, atr := 1, close := 100, ema30 := 2, ema50 := 1,
    bb_upper := 105, bb_lower := 95, volume_r := 1, market_state := "RANGING" }

/-- Fixture two-row DataFrame ending in the MOMENTUM scenario row. -/
def dfMom : List FeatureRow := [rowPrev, rowMom]

/-- Fixture configuration with the base risk at the top of the validated
range (5%), above the optimizer's 3.5% ceiling. -/
def cfgWide : Config := { cfgFix with RISK_PERCENT := 5 / 100 }

/-- Fixture configuration with the base risk at the bottom of the
validated range (1%), below the optimizer's 1.5% floor. -/
def cfgLow : Config := { cfgFix with RISK_PERCENT := 1 / 100 }

/-- The `risk_percent` selection of `calculate_position_size`: the
optimizer output on a non-empty history, the configured base risk
otherwise. -/
def cpsRisk (cfg : Config) (hist : List Trade) : ℚ :=
  if hist.length > 0 then optimize_risk cfg hist else cfg.RISK_PERCENT

/-- The `adjusted_risk` expression of `calculate_position_size`
(base amount times the volatility discount). -/
def cpsN (cfg : Config) (sc : SymbolCfg) (bal atr price : ℚ)
    (hist : List Trade) : ℚ :=
  bal * cpsRisk cfg hist * sc.risk_weight * (1 - min (atr / price * 100) 5 * (1 / 10))

/-- The `position_size` of `calculate_position_size` after the division
by `multiplier*atr` and the optional quote-currency conversion. -/
def cpsPS1 (cfg : Config) (sc : SymbolCfg) (symbol : String) (bal : ℚ)
    (st : StratType) (atr price : ℚ) (hist : List Trade) : ℚ :=
  if strEndsWith symbol "USDT" then
    cpsN cfg sc bal atr price hist / (sc.stop_multiplier st * atr) / price
  else
    cpsN cfg sc bal atr price hist / (sc.stop_multiplier st * atr)

/-- The `position_size` of `calculate_position_size` after the
`max_position` clamp (the value that is min-quantity-checked and then
rounded). -/
def cpsPS2 (cfg : Config) (sc : SymbolCfg) (symbol : String) (bal : ℚ)
    (st : StratType) (atr price : ℚ) (hist : List Trade) : ℚ :=
  min (cpsPS1 cfg sc symbol bal st atr price hist) (sc.max_position_usd / price)

/-- The lock-discipline invariant of `execute_order`: a thread is inside
the critical section exactly when it holds the manager's lock. -/
def lockInv {T : Type} (s : LockSys T) : Prop :=
  ∀ i, (s.pc i).inCrit = true ↔ s.lock = some i

/-! ## Theorems -/

/-- Looking up a key just deleted from the open-orders dict fails. -/
theorem lookupOrd_eraseOrd (k : ℕ) (l : List (ℕ × OpenOrder)) :
    lookupOrd k (eraseOrd k l) = none := by
  induction l with
  | nil => rfl
  | cons p t ih =>
    by_cases h : p.1 = k
    · have he : eraseOrd k (p :: t) = eraseOrd k t := by
        simp [eraseOrd, List.filter_cons, h]
      rw [he]
      exact ih
    · have he : eraseOrd k (p :: t) = p :: eraseOrd k t := by
        simp [eraseOrd, List.filter_cons, h]
      rw [he]
      have hl : lookupOrd k (p :: eraseOrd k t) = lookupOrd k (eraseOrd k t) := by
        simp [lookupOrd, List.find?_cons, h]
      rw [hl]
      exact ih

/-- The pre-execution check returns `False` whenever one of the three
gates (slippage, margin, open-order count) trips. -/
theorem pre_execution_check_false (cfg : Config) (o : ExecOracle)
    (st : OMState) (signal : Signal) (cp : ℚ)
    (hcp : o.current_price = some cp)
    (hfail :
      |cp - signal.price| / signal.price > cfg.MAX_SLIPPAGE ∨
      signal.size * cp / cfg.LEVERAGE > get_account_balance cfg o * (8 / 10) ∨
      cfg.MAX_OPEN_ORDERS ≤ st.open_orders.length) :
    pre_execution_check cfg o st signal = false := by
  unfold pre_execution_check
  rw [hcp]
  by_cases h0 : cp = 0
  · simp [h0]
  · by_cases h1 : |cp - signal.price| / signal.price > cfg.MAX_SLIPPAGE
    · simp [h0, h1]
    · by_cases h2 :
        signal.size * cp / cfg.LEVERAGE > get_account_balance cfg o * (8 / 10)
      · simp [h0, h1, h2]
      · by_cases h3 : cfg.MAX_OPEN_ORDERS ≤ st.open_orders.length
        · simp [h0, h1, h2, h3]
        · rcases hfail with h | h | h
          · exact absurd h h1
          · exact absurd h h2
          · exact absurd h h3

/-- C1: whenever a pre-execution gate fails — slippage above the
configured maximum, required margin `size*price/leverage` above 80% of
the account balance, or the open managed-order count at or above the
ceiling — `execute_order` returns failure, submits nothing, adds nothing
to `open_orders` and leaves the trade history unchanged (the whole state
is returned untouched). -/
theorem execute_order_precheck_abort (cfg : Config) (o : ExecOracle)
    (st : OMState) (signal : Signal) (cp : ℚ)
    (hcp : o.current_price = some cp)
    (hfail :
      |cp - signal.price| / signal.price > cfg.MAX_SLIPPAGE ∨
      signal.size * cp / cfg.LEVERAGE > get_account_balance cfg o * (8 / 10) ∨
      cfg.MAX_OPEN_ORDERS ≤ st.open_orders.length) :
    execute_order cfg o st signal = (false, st) := by
  unfold execute_order
  rw [pre_execution_check_false cfg o st signal cp hcp hfail]
  cases o.guardOk <;> rfl

/-- C1 witness: a current price 5% above the signal price with a 1%
maximum slippage aborts the signal and mutates nothing. -/
theorem execute_order_precheck_abort_witness :
    execute_order cfgFix oSlip stEmpty sigFix = (false, stEmpty) :=
  execute_order_precheck_abort cfgFix oSlip stEmpty sigFix 105 rfl
    (Or.inl (by norm_num [cfgFix, sigFix, oSlip]))

/-- C2: `_monitor_order` always ends in exactly one of the three terminal
outcomes (filled, canceled, timed out), and in every case — including a
timeout whose cancel request fails (`cancelOk = false`) — the order's
entry is gone from the live `open_orders` mapping afterwards. -/
theorem monitor_order_terminal (order_id : ℕ) (signal : Signal)
    (cancelOk : Bool) (now : ℚ) (st : OMState) (polls : List Poll) :
    lookupOrd order_id
      (monitor_order order_id signal cancelOk now st polls).2.open_orders = none ∧
    ((monitor_order order_id signal cancelOk now st polls).1 = MonitorOutcome.filled ∨
     (monitor_order order_id signal cancelOk now st polls).1 = MonitorOutcome.canceled ∨
     (monitor_order order_id signal cancelOk now st polls).1 = MonitorOutcome.timedOut) := by
  induction polls generalizing st with
  | nil =>
    exact ⟨lookupOrd_eraseOrd order_id st.open_orders, Or.inr (Or.inr rfl)⟩
  | cons p rest ih =>
    cases p with
    | err => exact ih st
    | ok status q px =>
      by_cases hf : status = "FILLED"
      · subst hf
        refine ⟨?_, Or.inl ?_⟩
        · simp only [monitor_order, if_pos rfl]
          exact lookupOrd_eraseOrd order_id st.open_orders
        · simp [monitor_order]
      · by_cases hc : status = "CANCELED"
        · subst hc
          refine ⟨?_, Or.inr (Or.inl ?_)⟩
          · simp only [monitor_order, if_neg hf, if_pos rfl]
            exact lookupOrd_eraseOrd order_id st.open_orders
          · simp [monitor_order, hf]
        · simpa only [monitor_order, if_neg hf, if_neg hc] using ih st

/-- C3: a snapshot written by `save_recovery_state` loads back exactly
when `now - timestamp <= 3600`; the loaded state carries precisely the
saved managed-order mapping and the saved (last-50) trade history; a
stale snapshot, like a missing file, loads as `none`. -/
theorem recovery_round_trip (cfg : Config) (ex : ExchangeView)
    (om : OMState) (tSave now : ℚ) :
    load_recovery_state (some (save_recovery_state cfg ex om tSave)) now =
      (if now - tSave ≤ 3600 then some (save_recovery_state cfg ex om tSave)
       else none) ∧
    (save_recovery_state cfg ex om tSave).trade_history =
      pySliceLast 50 om.trade_history ∧
    (save_recovery_state cfg ex om tSave).open_orders = om.open_orders ∧
    load_recovery_state none now = none := by
  refine ⟨?_, rfl, rfl, rfl⟩
  have key : ∀ f : RecoveryFile, f.timestamp = tSave →
      load_recovery_state (some f) now =
        if now - tSave ≤ 3600 then some f else none := by
    intro f hf
    simp only [load_recovery_state, hf]
    by_cases h : now - tSave ≤ 3600
    · rw [if_neg (not_lt.mpr h), if_pos h]
    · rw [if_pos (lt_of_not_le h), if_neg h]
  exact key _ rfl

/-- Filtering a mapped list is mapping the correspondingly-filtered list. -/
theorem filterMapComm (f : α → β) (p : β → Bool) (l : List α) :
    (l.map f).filter p = (l.filter (fun a => p (f a))).map f := by
  induction l with
  | nil => rfl
  | cons a t ih =>
    by_cases h : p (f a) <;> simp [List.filter_cons, h, ih]

/-- Summing absolute values of nonpositive rationals negates the sum. -/
theorem sum_abs_of_nonpos (L : List ℚ) (h : ∀ x ∈ L, x ≤ 0) :
    (L.map (fun x => |x|)).sum = -L.sum := by
  induction L with
  | nil => simp
  | cons a t ih =>
    have ha : a ≤ 0 := h a (List.mem_cons_self a t)
    have ht := ih (fun x hx => h x (List.mem_cons_of_mem a hx))
    simp [ht, abs_of_nonpos ha]
    ring

/-- A nonempty list of negative rationals has negative sum. -/
theorem sum_neg_of_all_neg (a : ℚ) (t : List ℚ)
    (h : ∀ x ∈ a :: t, x < 0) : (a :: t).sum < 0 := by
  induction t generalizing a with
  | nil => simpa using h a (List.mem_cons_self a [])
  | cons b t ih =>
    have hbt : (b :: t).sum < 0 := by
      refine ih b (fun x hx => h x ?_)
      simp only [List.mem_cons] at hx ⊢
      tauto
    have ha : a < 0 := h a (by simp)
    have hs : (a :: b :: t).sum = a + (b :: t).sum := by simp
    rw [hs]
    linarith

/-- The mean of a nonempty list of negative rationals is negative. -/
theorem listMean_neg (a : ℚ) (t : List ℚ) (h : ∀ x ∈ a :: t, x < 0) :
    listMean (a :: t) < 0 := by
  unfold listMean
  apply div_neg_of_neg_of_pos (sum_neg_of_all_neg a t h)
  exact_mod_cast Nat.succ_pos t.length

/-- `|mean L| = mean (map abs L)` for a list of negative rationals. -/
theorem abs_listMean_of_neg (L : List ℚ) (h : ∀ x ∈ L, x < 0) :
    |listMean L| = listMean (L.map (fun x => |x|)) := by
  unfold listMean
  rw [abs_div, sum_abs_of_nonpos L (fun x hx => le_of_lt (h x hx))]
  have : |(L.length : ℚ)| = (L.length : ℚ) := abs_of_nonneg (by positivity)
  rw [this, List.length_map]
  rcases L with _ | ⟨a, t⟩
  · simp
  · have := sum_neg_of_all_neg a t h
    rw [abs_of_nonpos (le_of_lt this)]

/-- `optimize_risk` on a history of at least 10 trades is the risk policy
applied to the code-shaped win rate and profit/loss quotient of the
evaluated window. -/
theorem optimize_risk_code_form (cfg : Config) (trades : List Trade)
    (h10 : 10 ≤ trades.length) :
    optimize_risk cfg trades =
      riskPolicySpec cfg.RISK_PERCENT
        (codeWinRate (pySliceLast cfg.PERFORMANCE_WINDOW trades))
        (codeQuot (pySliceLast cfg.PERFORMANCE_WINDOW trades)) := by
  unfold optimize_risk riskPolicySpec codeQuot codeWinRate codeAvgProfit
    codeAvgLoss codeProfitable codeLosing
  rw [if_neg (by omega)]

/-- The code-shaped win rate agrees with the spec-side one on the mapped
PnL list. -/
theorem codeWinRate_eq (recent : List Trade) :
    codeWinRate recent = winRateSpec (recent.map calculate_pnl) := by
  unfold codeWinRate winRateSpec codeProfitable
  rw [filterMapComm]
  simp

/-- The code-shaped average profit is the mean of the winners' PnLs (the
guarded zero case coincides with the empty mean). -/
theorem codeAvgProfit_eq (recent : List Trade) :
    codeAvgProfit recent =
      listMean ((recent.map calculate_pnl).filter (fun p => decide (p > 0))) := by
  unfold codeAvgProfit codeProfitable
  rw [filterMapComm]
  rcases hl : recent.filter (fun t => decide (calculate_pnl t > 0)) with _ | ⟨a, t⟩
  · simp [listMean]
  · simp

/-- Every mapped PnL of a losing trade is negative. -/
theorem codeLosing_map_neg (recent : List Trade) :
    ∀ x ∈ (codeLosing recent).map calculate_pnl, x < 0 := by
  intro x hx
  rcases List.mem_map.mp hx with ⟨tr, htr, hxeq⟩
  have hp := List.of_mem_filter htr
  rw [decide_eq_true_eq] at hp
  exact hxeq ▸ hp

/-- The code-shaped average loss (`abs` of the mean of negative PnLs) is
the spec-side mean of absolute losses, with the same no-loser default. -/
theorem codeAvgLoss_eq (recent : List Trade) :
    codeAvgLoss recent =
      (if ((recent.map calculate_pnl).filter (fun p => decide (p < 0))).isEmpty
       then 1
       else listMean
        (((recent.map calculate_pnl).filter (fun p => decide (p < 0))).map
          (fun p => |p|))) := by
  unfold codeAvgLoss codeLosing
  rw [filterMapComm]
  rcases hl : recent.filter (fun t => decide (calculate_pnl t < 0)) with _ | ⟨a, t⟩
  · simp
  · rw [if_neg (by simp), if_neg (by simp)]
    refine abs_listMean_of_neg _ ?_
    have := codeLosing_map_neg recent
    unfold codeLosing at this
    rw [hl] at this
    exact this

/-- The code-shaped average loss is always positive (so the guard
`if avg_loss > 0` in the source always takes the division branch). -/
theorem codeAvgLoss_pos (recent : List Trade) : 0 < codeAvgLoss recent := by
  unfold codeAvgLoss
  rcases hl : codeLosing recent with _ | ⟨a, t⟩
  · simp
  · rw [if_neg (by simp)]
    have hmem := codeLosing_map_neg recent
    rw [hl] at hmem
    have hneg : listMean ((a :: t).map calculate_pnl) < 0 :=
      listMean_neg (calculate_pnl a) (t.map calculate_pnl) (by simpa using hmem)
    simpa using abs_pos.mpr (ne_of_lt hneg)

/-- The code-shaped profit/loss quotient agrees with the spec-side
quotient on the mapped PnL list. -/
theorem codeQuot_eq (recent : List Trade) :
    codeQuot recent = plQuotSpec (recent.map calculate_pnl) := by
  unfold codeQuot plQuotSpec
  rw [if_pos (codeAvgLoss_pos recent), codeAvgProfit_eq, codeAvgLoss_eq]

/-- C4: for a history of at least 10 trades, `optimize_risk` evaluates
the most recent `performance_window` trades, computes the win rate and
the winners-mean over losers-absolute-mean quotient (loser mean
defaulting to 1), and applies exactly the x1.2-capped / x0.8-floored /
unchanged policy to the base risk. -/
theorem optimize_risk_policy (cfg : Config) (trades : List Trade)
    (h10 : 10 ≤ trades.length) :
    optimize_risk cfg trades =
      riskPolicySpec cfg.RISK_PERCENT
        (winRateSpec ((pySliceLast cfg.PERFORMANCE_WINDOW trades).map calculate_pnl))
        (plQuotSpec ((pySliceLast cfg.PERFORMANCE_WINDOW trades).map calculate_pnl)) := by
  rw [optimize_risk_code_form cfg trades h10, codeWinRate_eq, codeQuot_eq]

/-- C4 witness: 12 recent trades, 9 profitable, profit/loss quotient 2
(the spec scenario) — the policy raises the base risk by x1.2. -/
theorem optimize_risk_policy_witness :
    10 ≤ tradesNine.length ∧
    optimize_risk cfgFix tradesNine =
      riskPolicySpec cfgFix.RISK_PERCENT
        (winRateSpec ((pySliceLast cfgFix.PERFORMANCE_WINDOW tradesNine).map calculate_pnl))
        (plQuotSpec ((pySliceLast cfgFix.PERFORMANCE_WINDOW tradesNine).map calculate_pnl)) :=
  ⟨by decide, optimize_risk_policy cfgFix tradesNine (by decide)⟩

/-- C5 (amended): the optimizer returns the base risk unchanged below 10
trades and is a pure function of the passed history; for histories of at
least 10 trades its result stays within [1.5%, 3.5%] provided the
configured base risk itself lies in that interval (the unchanged branch
returns the base risk as-is, so a validated base risk outside [1.5%, 3.5%]
escapes the interval — see the counterexample). -/
theorem optimize_risk_props (cfg : Config) (trades trades2 : List Trade) :
    (trades.length < 10 → optimize_risk cfg trades = cfg.RISK_PERCENT) ∧
    (15 / 1000 ≤ cfg.RISK_PERCENT → cfg.RISK_PERCENT ≤ 35 / 1000 →
      10 ≤ trades.length →
      15 / 1000 ≤ optimize_risk cfg trades ∧
        optimize_risk cfg trades ≤ 35 / 1000) ∧
    (trades = trades2 → optimize_risk cfg trades = optimize_risk cfg trades2) := by
  refine ⟨?_, ?_, fun h => h ▸ rfl⟩
  · intro h
    unfold optimize_risk
    rw [if_pos h]
  · intro hlo hhi h10
    rw [optimize_risk_code_form cfg trades h10]
    unfold riskPolicySpec
    split_ifs
    · exact ⟨le_min (by linarith) (by norm_num), min_le_right _ _⟩
    · exact ⟨le_max_right _ _, max_le (by linarith) (by norm_num)⟩
    · exact ⟨hlo, hhi⟩

/-- C5 witness: with a base risk of 2% (inside [1.5%, 3.5%]) the bounds
hold on the 12-trade fixture, and a 9-trade prefix returns the base risk
unchanged. -/
theorem optimize_risk_props_witness :
    optimize_risk cfgFix (tradesNoPnl.take 9) = cfgFix.RISK_PERCENT ∧
    (15 / 1000 ≤ optimize_risk cfgFix tradesNine ∧
      optimize_risk cfgFix tradesNine ≤ 35 / 1000) ∧
    optimize_risk cfgFix tradesNine = optimize_risk cfgFix tradesNine :=
  ⟨(optimize_risk_props cfgFix (tradesNoPnl.take 9) (tradesNoPnl.take 9)).1 (by decide),
   (optimize_risk_props cfgFix tradesNine tradesNine).2.1 (by norm_num [cfgFix])
     (by norm_num [cfgFix]) (by decide),
   (optimize_risk_props cfgFix tradesNine tradesNine).2.2 rfl⟩

/-- C5 counterexample: a validated 5% base risk with a 10-trade history of
neutral performance (win rate 0.5, quotient 1) takes the unchanged branch
and returns 5%, outside the claimed [1.5%, 3.5%] interval. -/
theorem optimize_risk_range_cex :
    validRiskPercent cfgWide ∧ 10 ≤ tradesEven.length ∧
    optimize_risk cfgWide tradesEven = 5 / 100 ∧
    ¬(optimize_risk cfgWide tradesEven ≤ 35 / 1000) := by
  have h : optimize_risk cfgWide tradesEven = 5 / 100 := by
    norm_num [optimize_risk, pySliceLast, tradesEven, tradeFix, calculate_pnl,
      listMean, cfgWide, cfgFix, List.filter_cons]
  refine ⟨by constructor <;> norm_num [cfgWide, cfgFix], by decide, h, ?_⟩
  rw [h]
  norm_num

/-- C10 (amended): the per-trade PnL is the precomputed `pnl` field when
present and 0 otherwise, so a history of at least 10 trades none of which
carries a `pnl` field has win rate 0 and `optimize_risk` returns
`max(base*0.8, 0.015)` — which is a strict reduction only when
`base*0.8 > 0.015`; for a validated base risk below 1.5% it exceeds the
base (see the counterexample). -/
theorem optimize_risk_no_pnl (cfg : Config) (trades : List Trade)
    (h10 : 10 ≤ trades.length) (hnone : ∀ t ∈ trades, t.pnl = none) :
    winRateSpec ((pySliceLast cfg.PERFORMANCE_WINDOW trades).map calculate_pnl) = 0 ∧
    optimize_risk cfg trades = max (cfg.RISK_PERCENT * (8 / 10)) (15 / 1000) := by
  have hsub : ∀ t ∈ pySliceLast cfg.PERFORMANCE_WINDOW trades, t.pnl = none := by
    intro t ht
    apply hnone
    unfold pySliceLast at ht
    by_cases hn : cfg.PERFORMANCE_WINDOW = 0
    · rw [if_pos hn] at ht
      exact ht
    · rw [if_neg hn] at ht
      exact (List.drop_sublist _ _).subset ht
  have hzero : ∀ p ∈ (pySliceLast cfg.PERFORMANCE_WINDOW trades).map calculate_pnl,
      p = 0 := by
    intro p hp
    rcases List.mem_map.mp hp with ⟨t, ht, rfl⟩
    simp [calculate_pnl, hsub t ht]
  have hfpos : ((pySliceLast cfg.PERFORMANCE_WINDOW trades).map calculate_pnl).filter
      (fun p => decide (p > 0)) = [] := by
    rw [List.filter_eq_nil_iff]
    intro p hp
    simp [hzero p hp]
  have hfneg : ((pySliceLast cfg.PERFORMANCE_WINDOW trades).map calculate_pnl).filter
      (fun p => decide (p < 0)) = [] := by
    rw [List.filter_eq_nil_iff]
    intro p hp
    simp [hzero p hp]
  have hW : winRateSpec ((pySliceLast cfg.PERFORMANCE_WINDOW trades).map calculate_pnl) = 0 := by
    unfold winRateSpec
    rw [hfpos]
    simp
  have hQ : plQuotSpec ((pySliceLast cfg.PERFORMANCE_WINDOW trades).map calculate_pnl) = 0 := by
    unfold plQuotSpec
    rw [hfpos, hfneg]
    simp [listMean]
  refine ⟨hW, ?_⟩
  rw [optimize_risk_code_form cfg trades h10, codeWinRate_eq, codeQuot_eq, hW, hQ]
  norm_num [riskPolicySpec]

/-- C10 witness: 10 trades without `pnl` fields under the 2% fixture
configuration. -/
theorem optimize_risk_no_pnl_witness :
    winRateSpec ((pySliceLast cfgFix.PERFORMANCE_WINDOW tradesNoPnl).map calculate_pnl) = 0 ∧
    optimize_risk cfgFix tradesNoPnl = max (cfgFix.RISK_PERCENT * (8 / 10)) (15 / 1000) :=
  optimize_risk_no_pnl cfgFix tradesNoPnl (by decide) (by decide)

/-- C10 counterexample: with a validated 1% base risk and 10 pnl-less
trades the result is the 1.5% floor — the risk is raised above the base,
not reduced. -/
theorem optimize_risk_no_pnl_raises_cex :
    validRiskPercent cfgLow ∧
    optimize_risk cfgLow tradesNoPnl = 15 / 1000 ∧
    cfgLow.RISK_PERCENT < optimize_risk cfgLow tradesNoPnl := by
  have h : optimize_risk cfgLow tradesNoPnl = 15 / 1000 := by
    norm_num [optimize_risk, pySliceLast, tradesNoPnl, tradeFix, calculate_pnl,
      listMean, cfgLow, cfgFix, List.filter_cons]
  refine ⟨by constructor <;> norm_num [cfgLow, cfgFix], h, ?_⟩
  rw [h]
  norm_num [cfgLow, cfgFix]

/-- The concrete fixture symbol ends in USDT (the quote-conversion branch
of the sizer is taken). -/
theorem strEndsWith_usdt : strEndsWith "BTCUSDT" "USDT" = true := by decide

/-- C6: for any DataFrame passing the length and volatility pre-filters,
`generate_signal` emits a MOMENTUM signal exactly when the MOMENTUM rule
set holds and sizing succeeds; it emits a SWING signal exactly when
MOMENTUM does not fire, the SWING rule set holds and sizing succeeds; the
emitted strategy always follows the MOMENTUM-first evaluation order, so
the two outcomes are mutually exclusive. -/
theorem generate_signal_rules (cfg : Config) (syms : Symbols)
    (df : List FeatureRow) (symbol : String) (bal : ℚ) (hist : List Trade)
    (current : FeatureRow)
    (hlen : 2 ≤ df.length) (hlast : df.getLast? = some current)
    (hvol : ¬(current.atr > listMean (df.map (fun r => r.atr)) * cfg.VOLATILITY_FACTOR)) :
    ((∃ sig, generate_signal cfg syms true df symbol bal hist = some sig ∧
        sig.type = StratType.MOMENTUM) ↔
      (momentumCond current = true ∧
        ∃ q, calculate_position_size cfg syms symbol bal StratType.MOMENTUM
          current.atr current.close hist = some q)) ∧
    ((∃ sig, generate_signal cfg syms true df symbol bal hist = some sig ∧
        sig.type = StratType.SWING) ↔
      (momentumCond current = false ∧ swingCond current = true ∧
        ∃ q, calculate_position_size cfg syms symbol bal StratType.SWING
          current.atr current.close hist = some q)) ∧
    (∀ sig, generate_signal cfg syms true df symbol bal hist = some sig →
      sig.type = (if momentumCond current then StratType.MOMENTUM else StratType.SWING)) := by
  have hne : ¬ df.length < 2 := by omega
  unfold generate_signal
  rw [hlast]
  simp only [Bool.not_true, Bool.false_eq_true, if_false, if_neg hne, if_neg hvol]
  cases hm : momentumCond current with
  | true =>
    simp only [hm, if_true]
    cases hs : calculate_position_size cfg syms symbol bal StratType.MOMENTUM
        current.atr current.close hist with
    | none => simp [hs]
    | some q =>
      cases hsym : syms symbol with
      | none => simp [calculate_position_size, hsym] at hs
      | some sc => simp [hs, hsym, mkSignal]
  | false =>
    simp only [hm, if_false]
    cases hsw : swingCond current with
    | false =>
      cases hs : calculate_position_size cfg syms symbol bal StratType.SWING
          current.atr current.close hist with
      | none => simp [hs, hsw]
      | some q => simp [hs, hsw]
    | true =>
      cases hs : calculate_position_size cfg syms symbol bal StratType.SWING
          current.atr current.close hist with
      | none => simp [hs, hsw]
      | some q =>
        cases hsym : syms symbol with
        | none => simp [calculate_position_size, hsym] at hs
        | some sc => simp [hs, hsw, hsym, mkSignal]

/-- C6 witness: the spec's MOMENTUM scenario row (momentum 0.06, RSI 50,
close above the upper band, TRENDING) with successful sizing yields a
MOMENTUM signal. -/
theorem generate_signal_rules_witness :
    ∃ sig, generate_signal cfgFix symsFix true dfMom "BTCUSDT" 10000 [] = some sig ∧
      sig.type = StratType.MOMENTUM := by
  have hsz : (calculate_position_size cfgFix symsFix "BTCUSDT" 10000
      StratType.MOMENTUM rowMom.atr rowMom.close []).isSome = true := by
    norm_num [calculate_position_size, symsFix, scFix, cfgFix, strEndsWith_usdt, rowMom]
  exact (generate_signal_rules cfgFix symsFix dfMom "BTCUSDT" 10000 [] rowMom
      (by norm_num [dfMom]) rfl
      (by norm_num [dfMom, rowPrev, rowMom, listMean, cfgFix])).1.mpr
    ⟨by norm_num [momentumCond, rowMom], Option.isSome_iff_exists.mp hsz⟩

/-- `calculate_position_size` with a known symbol entry: min-quantity
check, then rounding, applied to the clamped position size. -/
theorem calculate_position_size_eq (cfg : Config) (syms : Symbols)
    (symbol : String) (bal : ℚ) (st : StratType) (atr price : ℚ)
    (hist : List Trade) (sc : SymbolCfg) (hsym : syms symbol = some sc) :
    calculate_position_size cfg syms symbol bal st atr price hist =
      (if cpsPS2 cfg sc symbol bal st atr price hist < sc.min_qty then none
       else some (pyRound5 (cpsPS2 cfg sc symbol bal st atr price hist))) := by
  unfold calculate_position_size cpsPS2 cpsPS1 cpsN cpsRisk
  rw [hsym]

/-- Round-half-even never overshoots the floor by more than one. -/
theorem roundHalfEven_le_floor_add_one (x : ℚ) : roundHalfEven x ≤ ⌊x⌋ + 1 := by
  unfold roundHalfEven
  dsimp only
  split_ifs <;> omega

/-- Round-half-even never undershoots the floor. -/
theorem floor_le_roundHalfEven (x : ℚ) : ⌊x⌋ ≤ roundHalfEven x := by
  unfold roundHalfEven
  dsimp only
  split_ifs <;> omega

/-- Round-half-even is monotone. -/
theorem roundHalfEven_mono {x y : ℚ} (h : x ≤ y) :
    roundHalfEven x ≤ roundHalfEven y := by
  rcases lt_or_eq_of_le (Int.floor_mono h) with hf | hf
  · have hx := roundHalfEven_le_floor_add_one x
    have hy := floor_le_roundHalfEven y
    omega
  · unfold roundHalfEven
    rw [← hf]
    dsimp only
    have h1 : x - ⌊x⌋ ≤ y - ⌊x⌋ := by linarith
    split_ifs <;> first | omega | linarith

/-- Python's 5-decimal rounding is monotone. -/
theorem pyRound5_mono {x y : ℚ} (h : x ≤ y) : pyRound5 x ≤ pyRound5 y := by
  unfold pyRound5
  have h2 : roundHalfEven (x * 100000) ≤ roundHalfEven (y * 100000) :=
    roundHalfEven_mono (by linarith)
  have h3 : (roundHalfEven (x * 100000) : ℚ) ≤ (roundHalfEven (y * 100000) : ℚ) := by
    exact_mod_cast h2
  gcongr

/-- The optimizer never outputs a negative risk from a nonnegative base. -/
theorem optimize_risk_nonneg (cfg : Config) (trades : List Trade)
    (h : 0 ≤ cfg.RISK_PERCENT) : 0 ≤ optimize_risk cfg trades := by
  by_cases h10 : trades.length < 10
  · unfold optimize_risk
    rw [if_pos h10]
    exact h
  · rw [optimize_risk_code_form cfg trades (by omega)]
    unfold riskPolicySpec
    split_ifs
    · exact le_min (by linarith) (by norm_num)
    · exact le_trans (by norm_num) (le_max_right _ _)
    · exact h

/-- The effective risk fraction used by the sizer is nonnegative. -/
theorem cpsRisk_nonneg (cfg : Config) (hist : List Trade)
    (h : 0 ≤ cfg.RISK_PERCENT) : 0 ≤ cpsRisk cfg hist := by
  unfold cpsRisk
  split_ifs
  · exact optimize_risk_nonneg cfg hist h
  · exact h

/-- C7 (amended): with balance, weights and base risk nonnegative and a
positive stop multiplier, the sizer's non-none output is monotonically
non-increasing in ATR at a fixed price (equivalently, in the ATR/price
volatility discount, which never exceeds the 50% cap); the returned
quantity never exceeds the 5-decimal rounding of the maximum
notional-derived quantity `max_position_usd/price` (the unrounded maximum
itself can be exceeded by the final rounding step — see the
counterexample). -/
theorem calculate_position_size_mono_capped (cfg : Config) (syms : Symbols)
    (symbol : String) (sc : SymbolCfg) (bal : ℚ) (st : StratType)
    (hist : List Trade) (atr1 atr2 price q1 q2 : ℚ)
    (hsym : syms symbol = some sc)
    (hprice : 0 < price) (hatr1 : 0 < atr1) (h12 : atr1 ≤ atr2)
    (hbal : 0 ≤ bal) (hw : 0 ≤ sc.risk_weight) (hrp : 0 ≤ cfg.RISK_PERCENT)
    (hm : 0 < sc.stop_multiplier st)
    (hq1 : calculate_position_size cfg syms symbol bal st atr1 price hist = some q1)
    (hq2 : calculate_position_size cfg syms symbol bal st atr2 price hist = some q2) :
    q2 ≤ q1 ∧ q1 ≤ pyRound5 (sc.max_position_usd / price) ∧
      min (atr1 / price * 100) 5 * (1 / 10) ≤ 1 / 2 := by
  have hatr2 : 0 < atr2 := lt_of_lt_of_le hatr1 h12
  have hB : 0 ≤ bal * cpsRisk cfg hist * sc.risk_weight :=
    mul_nonneg (mul_nonneg hbal (cpsRisk_nonneg cfg hist hrp)) hw
  have hfac : ∀ a : ℚ, (0 : ℚ) ≤ 1 - min (a / price * 100) 5 * (1 / 10) := by
    intro a
    have := min_le_right (a / price * 100) 5
    linarith
  have hN_nn : ∀ a : ℚ, 0 ≤ cpsN cfg sc bal a price hist := by
    intro a
    exact mul_nonneg hB (hfac a)
  have hN_mono : cpsN cfg sc bal atr2 price hist ≤ cpsN cfg sc bal atr1 price hist := by
    unfold cpsN
    apply mul_le_mul_of_nonneg_left _ hB
    have hdiv : atr1 / price ≤ atr2 / price := by gcongr
    have hmin : min (atr1 / price * 100) 5 ≤ min (atr2 / price * 100) 5 := by
      apply min_le_min _ le_rfl
      linarith
    linarith
  have hden_pos1 : 0 < sc.stop_multiplier st * atr1 := mul_pos hm hatr1
  have hden_le : sc.stop_multiplier st * atr1 ≤ sc.stop_multiplier st * atr2 :=
    mul_le_mul_of_nonneg_left h12 (le_of_lt hm)
  have hps0 : cpsN cfg sc bal atr2 price hist / (sc.stop_multiplier st * atr2) ≤
      cpsN cfg sc bal atr1 price hist / (sc.stop_multiplier st * atr1) :=
    div_le_div₀ (hN_nn atr1) hN_mono hden_pos1 hden_le
  have hps1 : cpsPS1 cfg sc symbol bal st atr2 price hist ≤
      cpsPS1 cfg sc symbol bal st atr1 price hist := by
    unfold cpsPS1
    by_cases hUS : strEndsWith symbol "USDT" = true
    · rw [if_pos hUS, if_pos hUS]
      exact div_le_div_of_nonneg_right hps0 (le_of_lt hprice)
    · rw [if_neg hUS, if_neg hUS]
      exact hps0
  have hps2 : cpsPS2 cfg sc symbol bal st atr2 price hist ≤
      cpsPS2 cfg sc symbol bal st atr1 price hist := by
    unfold cpsPS2
    exact min_le_min hps1 le_rfl
  rw [calculate_position_size_eq cfg syms symbol bal st atr1 price hist sc hsym] at hq1
  rw [calculate_position_size_eq cfg syms symbol bal st atr2 price hist sc hsym] at hq2
  by_cases hc1 : cpsPS2 cfg sc symbol bal st atr1 price hist < sc.min_qty
  · rw [if_pos hc1] at hq1
    cases hq1
  · rw [if_neg hc1] at hq1
    by_cases hc2 : cpsPS2 cfg sc symbol bal st atr2 price hist < sc.min_qty
    · rw [if_pos hc2] at hq2
      cases hq2
    · rw [if_neg hc2] at hq2
      injection hq1 with hq1
      injection hq2 with hq2
      subst hq1
      subst hq2
      refine ⟨pyRound5_mono hps2, pyRound5_mono ?_, ?_⟩
      · exact min_le_right _ _
      · have := min_le_right (atr1 / price * 100) 5
        linarith

/-- Floor of the scaled fixture cap. -/
theorem cps_floor_aux : ⌊(1999997 / 10 : ℚ)⌋ = 199999 := by
  rw [Int.floor_eq_iff]
  norm_num

/-- The fixture cap 1.999997 rounds UP to 2 at five decimals. -/
theorem cps_round_aux : pyRound5 (1999997 / 1000000 : ℚ) = 2 := by
  unfold pyRound5 roundHalfEven
  rw [show (1999997 / 1000000 : ℚ) * 100000 = 1999997 / 10 by norm_num, cps_floor_aux]
  norm_num

/-- On the fixture, the clamped position size equals the cap (ATR 0.01). -/
theorem cps_ps2_aux :
    cpsPS2 cfgFix scFix "BTCUSDT" 10000 StratType.MOMENTUM (1 / 100) 1 [] =
      1999997 / 1000000 := by
  norm_num [cpsPS2, cpsPS1, cpsN, cpsRisk, strEndsWith_usdt, scFix, cfgFix, min_def]

/-- On the fixture, the clamped position size equals the cap (ATR 0.02). -/
theorem cps_ps2_aux2 :
    cpsPS2 cfgFix scFix "BTCUSDT" 10000 StratType.MOMENTUM (2 / 100) 1 [] =
      1999997 / 1000000 := by
  norm_num [cpsPS2, cpsPS1, cpsN, cpsRisk, strEndsWith_usdt, scFix, cfgFix, min_def]

/-- The fixture sizer output at ATR 0.01 is exactly 2. -/
theorem cps_val_aux :
    calculate_position_size cfgFix symsFix "BTCUSDT" 10000 StratType.MOMENTUM
      (1 / 100) 1 [] = some 2 := by
  rw [calculate_position_size_eq cfgFix symsFix "BTCUSDT" 10000
      StratType.MOMENTUM (1 / 100) 1 [] scFix (by norm_num [symsFix]),
    cps_ps2_aux]
  rw [if_neg (by norm_num [scFix]), cps_round_aux]

/-- The fixture sizer output at ATR 0.02 is exactly 2. -/
theorem cps_val_aux2 :
    calculate_position_size cfgFix symsFix "BTCUSDT" 10000 StratType.MOMENTUM
      (2 / 100) 1 [] = some 2 := by
  rw [calculate_position_size_eq cfgFix symsFix "BTCUSDT" 10000
      StratType.MOMENTUM (2 / 100) 1 [] scFix (by norm_num [symsFix]),
    cps_ps2_aux2]
  rw [if_neg (by norm_num [scFix]), cps_round_aux]

/-- C7 counterexample: with `max_position_usd = 1.999997` and price 1 the
clamp yields 1.999997, but the final `round(.., 5)` returns 2 — strictly
above the maximum notional-derived quantity `max_position_usd/price`. -/
theorem cps_cap_rounding_cex :
    calculate_position_size cfgFix symsFix "BTCUSDT" 10000 StratType.MOMENTUM
      (1 / 100) 1 [] = some 2 ∧
    scFix.max_position_usd / 1 < 2 :=
  ⟨cps_val_aux, by norm_num [scFix]⟩

/-- C7 witness: at ATR 0.01 vs 0.02 (price 1) both outputs exist, the
larger-ATR output does not exceed the smaller-ATR one, and the cap and
50%-discount bounds hold. -/
theorem cps_mono_capped_witness :
    (2 : ℚ) ≤ 2 ∧ (2 : ℚ) ≤ pyRound5 (scFix.max_position_usd / 1) ∧
    min ((1 / 100 : ℚ) / 1 * 100) 5 * (1 / 10) ≤ 1 / 2 :=
  calculate_position_size_mono_capped cfgFix symsFix "BTCUSDT" scFix 10000
    StratType.MOMENTUM [] (1 / 100) (2 / 100) 1 2 2 (by norm_num [symsFix])
    (by norm_num) (by norm_num) (by norm_num) (by norm_num)
    (by norm_num [scFix]) (by norm_num [cfgFix]) (by norm_num [scFix])
    cps_val_aux cps_val_aux2

/-- Wilder smoothing of an all-zero tail from a zero seed stays zero. -/
theorem ewmGo_zero (al : ℚ) (s : ℚ) (hs : s = 0) (l : List ℚ)
    (h : ∀ x ∈ l, x = 0) : ∀ y ∈ ewmGo al s l, y = 0 := by
  induction l generalizing s with
  | nil =>
    intro y hy
    simp only [ewmGo, List.mem_singleton] at hy
    exact hy ▸ hs
  | cons x xs ih =>
    intro y hy
    rw [ewmGo] at hy
    rcases List.mem_cons.mp hy with rfl | hy2
    · exact hs
    · refine ih ((1 - al) * s + al * x) ?_ (fun z hz => h z (List.mem_cons_of_mem x hz)) y hy2
      rw [hs, h x (List.mem_cons_self x xs)]
      ring

/-- Wilder smoothing of an all-zero series is all-zero. -/
theorem ewmList_zero (al : ℚ) (l : List ℚ) (h : ∀ x ∈ l, x = 0) :
    ∀ y ∈ ewmList al l, y = 0 := by
  cases l with
  | nil => intro y hy; simp [ewmList] at hy
  | cons x xs =>
    intro y hy
    rw [ewmList] at hy
    exact ewmGo_zero al x (h x (List.mem_cons_self x xs)) xs
      (fun z hz => h z (List.mem_cons_of_mem x hz)) y hy

/-- A row with zero smoothed directional movement has NaN DX: with a
nonzero smoothed true range both DIs are 0 and `100*|0-0|/(0+0)` is
`0/0 = NaN`; with a zero smoothed true range both DIs are already
`0/0 = NaN`. -/
theorem dxRow_zero (a : ℚ) : dxRow 0 0 a = EF.nan := by
  unfold dxRow
  by_cases ha : a = 0
  · simp [ha, EF.div, EF.mul, EF.sub, EF.add, EF.neg, EF.abs]
  · simp [ha, EF.div, EF.mul, EF.sub, EF.add, EF.neg, EF.abs]

/-- Members of a three-way zip come from members of the three lists. -/
theorem mem_zipWith3 {α β γ δ : Type} {f : α → β → γ → δ} {as : List α}
    {bs : List β} {cs : List γ} {x : δ}
    (hx : x ∈ List.zipWith3 f as bs cs) :
    ∃ a b c, a ∈ as ∧ b ∈ bs ∧ c ∈ cs ∧ x = f a b c := by
  induction as generalizing bs cs with
  | nil => simp [List.zipWith3] at hx
  | cons a as ih =>
    cases bs with
    | nil => simp [List.zipWith3] at hx
    | cons b bs =>
      cases cs with
      | nil => simp [List.zipWith3] at hx
      | cons c cs =>
        rw [List.zipWith3] at hx
        rcases List.mem_cons.mp hx with rfl | hx2
        · exact ⟨a, b, c, List.mem_cons_self a as, List.mem_cons_self b bs,
            List.mem_cons_self c cs, rfl⟩
        · rcases ih hx2 with ⟨a2, b2, c2, ha2, hb2, hc2, hx3⟩
          exact ⟨a2, b2, c2, List.mem_cons_of_mem a ha2,
            List.mem_cons_of_mem b hb2, List.mem_cons_of_mem c hc2, hx3⟩

/-- The pandas exponential mean of an all-NaN series is all-NaN. -/
theorem ewmEFGo_nan (al : ℚ) (l : List EF) (h : ∀ x ∈ l, x = EF.nan) :
    ∀ y ∈ ewmEFGo al none l, y = EF.nan := by
  induction l with
  | nil => intro y hy; simp [ewmEFGo] at hy
  | cons x xs ih =>
    intro y hy
    have hx := h x (List.mem_cons_self x xs)
    subst hx
    rw [ewmEFGo] at hy
    rcases List.mem_cons.mp hy with rfl | hy2
    · rfl
    · exact ih (fun z hz => h z (List.mem_cons_of_mem _ hz)) y hy2

/-- When every filtered directional movement is zero (the zero-DI-sum
degenerate case), every ADX output is NaN. -/
theorem calculate_adx_nan (highs lows closes : List ℚ)
    (hdp : ∀ x ∈ dmPlusList highs lows, x = 0)
    (hdm : ∀ x ∈ dmMinusList highs lows, x = 0) :
    ∀ a ∈ calculate_adx_accurate highs lows closes, a = EF.nan := by
  intro a ha
  unfold calculate_adx_accurate ewmEF at ha
  refine ewmEFGo_nan _ _ ?_ a ha
  intro x hx
  rcases mem_zipWith3 hx with ⟨dp, dm, atrs, hdp2, hdm2, _, rfl⟩
  rw [ewmList_zero _ _ hdp dp hdp2, ewmList_zero _ _ hdm dm hdm2]
  exact dxRow_zero atrs

/-- The RSI formula at a zero average loss: `rs = g/0` is `+inf` (or
`-inf`), making `100 - 100/(1+rs) = 100` exactly; at `0/0` the whole
chain is NaN (an absent value, dropped by `dropna`). -/
theorem rsiFromAvg_zero_loss (g : ℚ) :
    rsiFromAvg g 0 = if g = 0 then EF.nan else EF.fin 100 := by
  unfold rsiFromAvg
  rcases lt_trichotomy g 0 with h | h | h
  · rw [if_neg (ne_of_lt h)]
    simp [EF.div, EF.add, EF.sub, EF.neg, ne_of_lt h, not_lt.mpr (le_of_lt h)]
  · subst h
    simp [EF.div, EF.add, EF.sub, EF.neg]
  · rw [if_neg (ne_of_gt h)]
    simp [EF.div, EF.add, EF.sub, EF.neg, ne_of_gt h, h]

/-- `detect_market_regime` maps a NaN ADX to the `'UNKNOWN'` sentinel. -/
theorem detect_market_regime_nan (cl bl bu : EF) :
    detect_market_regime EF.nan cl bl bu = "UNKNOWN" := rfl

/-- C8: division by zero inside the indicator pipeline degrades to a
defined sentinel, never a fault: a smoothed-average pair of the RSI
pipeline with zero average loss yields exactly RSI = 100 (or NaN when the
average gain is also zero), and that value is what
`calculate_rsi_accurate` emits; and on any series whose filtered
directional movements are all zero (zero DI sum), every ADX value is NaN
and `detect_market_regime` returns `'UNKNOWN'`. -/
theorem indicator_div_zero_sentinels
    (closes highs lows closes2 : List ℚ) (g l : ℚ) (a cl bl bu : EF)
    (hmem : (g, l) ∈ rsiPairs closes)
    (hloss : l = 0)
    (hdp : ∀ x ∈ dmPlusList highs lows, x = 0)
    (hdm : ∀ x ∈ dmMinusList highs lows, x = 0)
    (ha : a ∈ calculate_adx_accurate highs lows closes2) :
    rsiFromAvg g l = (if g = 0 then EF.nan else EF.fin 100) ∧
    rsiFromAvg g l ∈ calculate_rsi_accurate closes ∧
    a = EF.nan ∧
    detect_market_regime a cl bl bu = "UNKNOWN" := by
  have hnan := calculate_adx_nan highs lows closes2 hdp hdm a ha
  subst hloss
  exact ⟨rsiFromAvg_zero_loss g,
    List.mem_map_of_mem (fun p => rsiFromAvg p.1 p.2) hmem, hnan,
    hnan ▸ detect_market_regime_nan cl bl bu⟩

/-- C8 witness: the non-decreasing close series `[1, 1, 2]` has zero
average loss and positive average gain at its last row (RSI = 100), and
the constant series `[1, 1, 1]` has all-NaN ADX with regime
`'UNKNOWN'`. -/
theorem indicator_sentinels_witness :
    rsiFromAvg (1 / 14) 0 = (if (1 / 14 : ℚ) = 0 then EF.nan else EF.fin 100) ∧
    rsiFromAvg (1 / 14) 0 ∈ calculate_rsi_accurate [1, 1, 2] ∧
    EF.nan = EF.nan ∧
    detect_market_regime EF.nan (EF.fin 1) EF.nan EF.nan = "UNKNOWN" := by
  refine indicator_div_zero_sentinels [1, 1, 2] [1, 1, 1] [1, 1, 1] [1, 1, 1]
    (1 / 14) 0 EF.nan (EF.fin 1) EF.nan EF.nan ?_ rfl ?_ ?_ ?_
  · norm_num [rsiPairs, gainsList, gainsGo, lossesList, lossesGo, ewmList, ewmGo]
  · intro x hx
    norm_num [dmPlusList, dmPairs, dmGo] at hx
    simpa using hx
  · intro x hx
    norm_num [dmMinusList, dmPairs, dmGo] at hx
    simpa using hx
  · norm_num [calculate_adx_accurate, trueRangeList, trGo, dmPlusList,
      dmMinusList, dmPairs, dmGo, ewmList, ewmGo, ewmEF, ewmEFGo, dxRow,
      EF.div, EF.mul, EF.add, EF.sub, EF.neg, EF.abs]

/-- The all-idle initial state satisfies the lock invariant. -/
theorem lockInv_init (T : Type) : lockInv (lockInit T) := by
  intro i
  constructor
  · intro h
    simp [lockInit, LockPC.inCrit] at h
  · intro h
    simp [lockInit] at h

/-- Every step of the `execute_order` locking semantics preserves the
lock invariant. -/
theorem lockInv_step {T : Type} [DecidableEq T] {s s' : LockSys T}
    (hstep : LockStep s s') (hinv : lockInv s) : lockInv s' := by
  cases hstep with
  | acquire i hpc hl =>
    intro j
    dsimp only
    by_cases hij : j = i
    · subst hij
      simp [Function.update_same, LockPC.inCrit]
    · rw [show (Function.update s.pc i LockPC.checking) j = s.pc j from
        Function.update_noteq hij _ _]
      constructor
      · intro hb
        have := (hinv j).mp hb
        rw [hl] at this
        cases this
      · intro heq
        have : i = j := by
          injection heq
        exact absurd this.symm hij
  | checkFail i hpc hl =>
    intro j
    dsimp only
    by_cases hij : j = i
    · subst hij
      simp [Function.update_same, LockPC.inCrit]
    · rw [show (Function.update s.pc i LockPC.done) j = s.pc j from
        Function.update_noteq hij _ _]
      constructor
      · intro hb
        have h2 := (hinv j).mp hb
        rw [hl] at h2
        injection h2 with h3
        exact absurd h3.symm hij
      · intro heq
        cases heq
  | checkOk i hpc hl =>
    intro j
    dsimp only
    by_cases hij : j = i
    · subst hij
      simp only [Function.update_same]
      constructor
      · intro _
        exact hl
      · intro _
        rfl
    · rw [show (Function.update s.pc i LockPC.submitting) j = s.pc j from
        Function.update_noteq hij _ _]
      exact hinv j
  | submitFail i hpc hl =>
    intro j
    dsimp only
    by_cases hij : j = i
    · subst hij
      simp [Function.update_same, LockPC.inCrit]
    · rw [show (Function.update s.pc i LockPC.done) j = s.pc j from
        Function.update_noteq hij _ _]
      constructor
      · intro hb
        have h2 := (hinv j).mp hb
        rw [hl] at h2
        injection h2 with h3
        exact absurd h3.symm hij
      · intro heq
        cases heq
  | submitOk i hpc hl =>
    intro j
    dsimp only
    by_cases hij : j = i
    · subst hij
      simp only [Function.update_same]
      constructor
      · intro _
        exact hl
      · intro _
        rfl
    · rw [show (Function.update s.pc i LockPC.recording) j = s.pc j from
        Function.update_noteq hij _ _]
      exact hinv j
  | finish i hpc hl =>
    intro j
    dsimp only
    by_cases hij : j = i
    · subst hij
      simp [Function.update_same, LockPC.inCrit]
    · rw [show (Function.update s.pc i LockPC.done) j = s.pc j from
        Function.update_noteq hij _ _]
      constructor
      · intro hb
        have h2 := (hinv j).mp hb
        rw [hl] at h2
        injection h2 with h3
        exact absurd h3.symm hij
      · intro heq
        cases heq
  | raise i hpc hl =>
    intro j
    dsimp only
    by_cases hij : j = i
    · subst hij
      simp [Function.update_same, LockPC.inCrit]
    · rw [show (Function.update s.pc i LockPC.done) j = s.pc j from
        Function.update_noteq hij _ _]
      constructor
      · intro hb
        have h2 := (hinv j).mp hb
        rw [hl] at h2
        injection h2 with h3
        exact absurd h3.symm hij
      · intro heq
        cases heq

/-- Every reachable state satisfies the lock invariant. -/
theorem lockInv_reachable {T : Type} [DecidableEq T] {s : LockSys T}
    (h : LockReachable s) : lockInv s := by
  unfold LockReachable at h
  induction h with
  | refl => exact lockInv_init T
  | tail hr hstep ih => exact lockInv_step hstep ih

/-- C9: in every reachable interleaving of threads calling
`execute_order` on one manager, at most one thread is between the start
of pre-trade validation and the recording of the order (any two threads
inside the critical section are equal), and a thread that has returned
(on any exit path: validation failure, submission failure, normal
completion, or exception) no longer holds the lock. -/
theorem execute_order_lock_exclusion (T : Type) [DecidableEq T]
    (s : LockSys T) (h : LockReachable s) (i j k : T)
    (hi : (s.pc i).inCrit = true) (hj : (s.pc j).inCrit = true)
    (hk : s.pc k = LockPC.done) :
    i = j ∧ s.lock ≠ some k := by
  have hinv := lockInv_reachable h
  have h1 := (hinv i).mp hi
  have h2 := (hinv j).mp hj
  constructor
  · rw [h1] at h2
    injection h2
  · intro hcontra
    have := (hinv k).mpr hcontra
    rw [hk] at this
    cases this

/-- C9 witness: after thread `true` acquires, fails validation and
returns, and thread `false` acquires, mutual exclusion and lock release
hold in the concrete reachable state. -/
theorem execute_order_lock_exclusion_witness :
    (false = false) ∧ lockS3.lock ≠ some true := by
  have step1 : LockStep (lockInit Bool) lockS1 :=
    LockStep.acquire (lockInit Bool) true rfl rfl
  have step2 : LockStep lockS1 lockS2 :=
    LockStep.checkFail lockS1 true rfl rfl
  have step3 : LockStep lockS2 lockS3 :=
    LockStep.acquire lockS2 false rfl rfl
  exact execute_order_lock_exclusion Bool lockS3
    (Relation.ReflTransGen.tail
      (Relation.ReflTransGen.tail (Relation.ReflTransGen.single step1) step2)
      step3)
    false false true rfl rfl rfl
